import Mathlib

/-!
Verification of the Sentinel decision-loop core against its design notes.

Shallow embedding conventions:
* Rust `f64` values are modelled as exact rationals (`ℚ`); the numeric
  literals of the source (`100.0`, `0.05`, `1e-3`, ...) are all exactly
  representable, so the threshold comparisons the design talks about are
  faithful.  Where the source takes a real square root (the Heston signal
  generator), the square-root function is passed in as an explicit
  parameter `sq : ℚ → ℚ`, and the theorems quantify over it.
* `std::time::Instant` timestamps are modelled as rational numbers of
  seconds; `t.elapsed()` at current time `now` is `now - t`.
* `HashMap` fields are modelled as association lists queried with
  `List.lookup`.
* Logging macros (`info!`, `warn!`, `error!`, `debug!`) have no effect on
  program state and are dropped.
* A Rust `panic!` / `.expect` failure is modelled as `Except.error`.
-/

namespace Sentinel

/-! ### `src/ltl/mod.rs` — the obligation (LTL safety) monitor -/

/-- Events consumed by the monitor (`SentinelEvent` in `src/ltl/mod.rs`). -/
inductive SentinelEvent where
  | PriceUpdate (price : ℚ)
  | HedgeExecuted
  | QuantumJobFinished
deriving DecidableEq, Repr

/-- Monitor states (`MonitorState` in `src/ltl/mod.rs`).  The design notes
call `Safe` "Clear" and `PendingHedge n` "Pending(n)". -/
inductive MonitorState where
  | Safe
  | PendingHedge (ticks : ℕ)
deriving DecidableEq, Repr

/-- The monitor record (`SafetyMonitor` in `src/ltl/mod.rs`). -/
structure SafetyMonitor where
  state : MonitorState
  maxTicksTolerance : ℕ
deriving DecidableEq, Repr

/-- `SafetyMonitor::new(tolerance)`. -/
def SafetyMonitor.new (tolerance : ℕ) : SafetyMonitor :=
  { state := MonitorState.Safe, maxTicksTolerance := tolerance }

/-- `SafetyMonitor::check`.  Returns the boolean result together with the
updated monitor.  In `Safe`, a price update below `100.0` enters
`PendingHedge 0`; in `PendingHedge`, a `HedgeExecuted` event returns to
`Safe`, and any other event increments the tick counter, returning `false`
exactly when the counter exceeds the tolerance. -/
def SafetyMonitor.check (m : SafetyMonitor) (event : SentinelEvent) :
    Bool × SafetyMonitor :=
  match m.state, event with
  | MonitorState.Safe, SentinelEvent.PriceUpdate price =>
      if price < 100 then
        (true, { m with state := MonitorState.PendingHedge 0 })
      else
        (true, m)
  | MonitorState.Safe, _ => (true, m)
  | MonitorState.PendingHedge _, SentinelEvent.HedgeExecuted =>
      (true, { m with state := MonitorState.Safe })
  | MonitorState.PendingHedge ticks, _ =>
      let t := ticks + 1
      if t > m.maxTicksTolerance then
        (false, { m with state := MonitorState.PendingHedge t })
      else
        (true, { m with state := MonitorState.PendingHedge t })

/-- Run the monitor over a list of events, collecting each `check` result
and the final monitor. -/
def runMonitor (m : SafetyMonitor) : List SentinelEvent → List Bool × SafetyMonitor
  | [] => ([], m)
  | e :: es =>
      let r := m.check e
      let rest := runMonitor r.2 es
      (r.1 :: rest.1, rest.2)

/-- The sequence of states the monitor passes through after each event of
the list (the state after event `i` is entry `i`). -/
def monitorTrace (m : SafetyMonitor) : List SentinelEvent → List MonitorState
  | [] => []
  | e :: es =>
      let m' := (m.check e).2
      m'.state :: monitorTrace m' es

/-- In `PendingHedge n`, any event other than `HedgeExecuted` increments the
tick counter and returns `true` exactly when the new count is within the
tolerance. -/
theorem check_pending_not_hedge (n tol : ℕ) (e : SentinelEvent)
    (he : e ≠ SentinelEvent.HedgeExecuted) :
    SafetyMonitor.check ⟨MonitorState.PendingHedge n, tol⟩ e =
      (decide (n + 1 ≤ tol), ⟨MonitorState.PendingHedge (n + 1), tol⟩) := by
  cases e with
  | PriceUpdate p =>
      by_cases h : n + 1 > tol
      · simp [SafetyMonitor.check, h, decide_eq_false (by omega : ¬ (n + 1 ≤ tol))]
      · simp [SafetyMonitor.check, h, decide_eq_true (by omega : n + 1 ≤ tol)]
  | HedgeExecuted => exact absurd rfl he
  | QuantumJobFinished =>
      by_cases h : n + 1 > tol
      · simp [SafetyMonitor.check, h, decide_eq_false (by omega : ¬ (n + 1 ≤ tol))]
      · simp [SafetyMonitor.check, h, decide_eq_true (by omega : n + 1 ≤ tol)]

/-- Running the monitor from `PendingHedge n` over a list of events none of
which is `HedgeExecuted`: the `i`-th result (0-based) is `true` exactly when
`n + i + 1 ≤ tol`, and the counter accumulates to `n + length`. -/
theorem runMonitor_pending_run (tol : ℕ) :
    ∀ (es : List SentinelEvent), (∀ e ∈ es, e ≠ SentinelEvent.HedgeExecuted) →
    ∀ n : ℕ,
    runMonitor ⟨MonitorState.PendingHedge n, tol⟩ es =
      ((List.range es.length).map (fun i => decide (n + i + 1 ≤ tol)),
        ⟨MonitorState.PendingHedge (n + es.length), tol⟩) := by
  intro es
  induction es with
  | nil => intro _ n; simp [runMonitor]
  | cons e es ih =>
      intro hes n
      have he : e ≠ SentinelEvent.HedgeExecuted := hes e (List.mem_cons_self e es)
      have hes' : ∀ x ∈ es, x ≠ SentinelEvent.HedgeExecuted :=
        fun x hx => hes x (List.mem_cons_of_mem e hx)
      simp only [runMonitor, check_pending_not_hedge n tol e he, ih hes' (n + 1)]
      refine Prod.ext ?_ ?_
      · simp only [List.length_cons, List.range_succ_eq_map, List.map_cons, List.map_map]
        refine congrArg₂ List.cons (by simp) ?_
        refine List.map_congr_left ?_
        intro i _
        exact decide_eq_decide.mpr (by constructor <;> (intro h; omega))
      · simp only [List.length_cons]
        have harith : n + 1 + es.length = n + (es.length + 1) := by omega
        rw [harith]

/-- C1: with tolerance `T`, a sub-threshold price update moves the monitor
from `Safe` (the spec's `Clear`) into `PendingHedge 0` (the spec's
`Pending(0)`), and from there the `i`-th subsequent non-hedge event (1-based,
`i = index + 1`) returns `true` exactly for `i ≤ T` and `false` for
`i ≥ T + 1`; the tick counter accumulates to the number of such events and is
never reset by a violation, and a `HedgeExecuted` event restores `Safe`. -/
theorem obligation_tolerance_window (T : ℕ) (p : ℚ) (es : List SentinelEvent)
    (hp : p < 100) (hes : ∀ e ∈ es, e ≠ SentinelEvent.HedgeExecuted) :
    (SafetyMonitor.new T).check (SentinelEvent.PriceUpdate p) =
      (true, ⟨MonitorState.PendingHedge 0, T⟩) ∧
    runMonitor ⟨MonitorState.PendingHedge 0, T⟩ es =
      ((List.range es.length).map (fun i => decide (i + 1 ≤ T)),
        ⟨MonitorState.PendingHedge es.length, T⟩) ∧
    SafetyMonitor.check ⟨MonitorState.PendingHedge es.length, T⟩
        SentinelEvent.HedgeExecuted = (true, ⟨MonitorState.Safe, T⟩) := by
  refine ⟨?_, ?_, ?_⟩
  · simp [SafetyMonitor.new, SafetyMonitor.check, hp]
  · have h := runMonitor_pending_run T es hes 0
    simpa using h
  · rfl

/-- Witness for `obligation_tolerance_window` at `T = 2`, `p = 99`, and the
three non-hedge events `[PriceUpdate 101, QuantumJobFinished,
PriceUpdate 98]`: results `true, true, false` and final state
`PendingHedge 3`. -/
theorem obligation_tolerance_window_witness :
    (99 : ℚ) < 100 ∧
    ((SafetyMonitor.new 2).check (SentinelEvent.PriceUpdate 99) =
      (true, ⟨MonitorState.PendingHedge 0, 2⟩) ∧
    runMonitor ⟨MonitorState.PendingHedge 0, 2⟩
        [SentinelEvent.PriceUpdate 101, SentinelEvent.QuantumJobFinished,
          SentinelEvent.PriceUpdate 98] =
      ([true, true, false], ⟨MonitorState.PendingHedge 3, 2⟩) ∧
    SafetyMonitor.check ⟨MonitorState.PendingHedge 3, 2⟩
        SentinelEvent.HedgeExecuted = (true, ⟨MonitorState.Safe, 2⟩)) := by
  refine ⟨by norm_num, ?_⟩
  have h := obligation_tolerance_window 2 99
    [SentinelEvent.PriceUpdate 101, SentinelEvent.QuantumJobFinished,
      SentinelEvent.PriceUpdate 98] (by norm_num) (by decide)
  simpa using h

/-- The four-event price sequence of the end-to-end example in §8. -/
def endToEndEvents : List SentinelEvent :=
  [SentinelEvent.PriceUpdate 101, SentinelEvent.PriceUpdate 99,
    SentinelEvent.PriceUpdate 98, SentinelEvent.PriceUpdate 100]

/-- C7 counterexample: feeding `[101, 99, 98, 100]` through a monitor with
tolerance 10 yields the state trace
`Safe, PendingHedge 0, PendingHedge 1, PendingHedge 2` — the final price
update of `100` is still counted (any non-hedge event increments the
`PendingHedge` counter), so the trace claimed in the spec, ending in
`Pending(1)`, is wrong. -/
theorem end_to_end_trace_not_as_specified :
    monitorTrace (SafetyMonitor.new 10) endToEndEvents =
      [MonitorState.Safe, MonitorState.PendingHedge 0,
        MonitorState.PendingHedge 1, MonitorState.PendingHedge 2] ∧
    monitorTrace (SafetyMonitor.new 10) endToEndEvents ≠
      [MonitorState.Safe, MonitorState.PendingHedge 0,
        MonitorState.PendingHedge 1, MonitorState.PendingHedge 1] := by
  constructor <;> decide

/-- C7 amended: the trace for `[101, 99, 98, 100]` at tolerance 10 is
`Safe, PendingHedge 0, PendingHedge 1, PendingHedge 2`, and the monitor
stays in `PendingHedge` (incrementing each tick) until a `HedgeExecuted`
event restores `Safe`. -/
theorem end_to_end_trace (n : ℕ) (e : SentinelEvent)
    (he : e ≠ SentinelEvent.HedgeExecuted) :
    monitorTrace (SafetyMonitor.new 10) endToEndEvents =
      [MonitorState.Safe, MonitorState.PendingHedge 0,
        MonitorState.PendingHedge 1, MonitorState.PendingHedge 2] ∧
    (SafetyMonitor.check ⟨MonitorState.PendingHedge n, 10⟩ e).2.state =
      MonitorState.PendingHedge (n + 1) ∧
    SafetyMonitor.check ⟨MonitorState.PendingHedge n, 10⟩
        SentinelEvent.HedgeExecuted = (true, ⟨MonitorState.Safe, 10⟩) := by
  refine ⟨by decide, ?_, rfl⟩
  rw [check_pending_not_hedge n 10 e he]

/-- Witness for `end_to_end_trace` at `n = 5` and the non-hedge event
`QuantumJobFinished`. -/
theorem end_to_end_trace_witness :
    SentinelEvent.QuantumJobFinished ≠ SentinelEvent.HedgeExecuted ∧
    (SafetyMonitor.check ⟨MonitorState.PendingHedge 5, 10⟩
        SentinelEvent.QuantumJobFinished).2.state = MonitorState.PendingHedge 6 :=
  ⟨by decide, (end_to_end_trace 5 SentinelEvent.QuantumJobFinished (by decide)).2.1⟩

/-! ### `src/sre.rs` — feasibility verifier and circuit breaker -/

/-- `CoherenceVerifier::verify(depth, t1_micros)`: estimated duration is
`depth * 0.05` microseconds; the circuit is rejected when it exceeds the
margin-adjusted limit `t1_micros * 0.5`.  (The source's decimal literals
`0.05` and `0.5` are written as the exact fractions `5 / 100` and `1 / 2`.) -/
def CoherenceVerifier.verify (depth : ℕ) (t1Micros : ℚ) : Bool :=
  let durationUs : ℚ := (depth : ℚ) * (5 / 100)
  let limit : ℚ := t1Micros * (1 / 2)
  if durationUs > limit then false else true

/-- Circuit-breaker states (`HealthState` in `src/sre.rs`). -/
inductive HealthState where
  | Healthy
  | Degraded
  | Open
deriving DecidableEq, Repr

/-- The guarded breaker record (`SentinelSRE` in `src/sre.rs`).  The three
`Arc<Mutex<...>>` fields are modelled as plain fields, and each operation is
a function of the whole record (the source acquires all locks it needs for
the duration of the operation).  `Instant` timestamps are rationals in
seconds. -/
structure SentinelSRE where
  state : HealthState
  errorCount : ℕ
  lastFailure : Option ℚ
deriving DecidableEq, Repr

/-- `SentinelSRE::new()`. -/
def SentinelSRE.new : SentinelSRE :=
  { state := HealthState.Healthy, errorCount := 0, lastFailure := none }

/-- `SentinelSRE::record_metric`: structured logging only, no state change. -/
def SentinelSRE.recordMetric (s : SentinelSRE) : SentinelSRE := s

/-- `SentinelSRE::report_failure` at current time `now`: increments the
error counter, stamps the failure time, and opens the circuit when the
counter exceeds 5. -/
def SentinelSRE.reportFailure (s : SentinelSRE) (now : ℚ) : SentinelSRE :=
  let errCount := s.errorCount + 1
  let s1 := { s with errorCount := errCount, lastFailure := some now }
  if errCount > 5 then { s1 with state := HealthState.Open } else s1

/-- `SentinelSRE::reset`: clears the counter and closes the circuit (the
last-failure timestamp is left in place). -/
def SentinelSRE.reset (s : SentinelSRE) : SentinelSRE :=
  { s with errorCount := 0, state := HealthState.Healthy }

/-- `SentinelSRE::check_health` at current time `now`: if the circuit is
`Open` and more than 30 seconds have elapsed since the last failure, the
breaker resets and admits work; if `Open` within the cooldown (or with no
recorded failure) it denies work; otherwise it admits work. -/
def SentinelSRE.checkHealth (s : SentinelSRE) (now : ℚ) : Bool × SentinelSRE :=
  if s.state = HealthState.Open then
    match s.lastFailure with
    | some t => if now - t > 30 then (true, s.reset) else (false, s)
    | none => (false, s)
  else
    (true, s)

/-- C6: `CoherenceVerifier::verify` returns `true` iff `depth * 0.05` does
not exceed `t1 * 0.5`; in particular `verify 10 100 = true` and
`verify 2000 1 = false`.  The verifier is a pure function of its two
arguments (it reads and mutates no state). -/
theorem coherence_verify_spec (depth : ℕ) (t1 : ℚ) :
    (CoherenceVerifier.verify depth t1 = true ↔
      (depth : ℚ) * (5 / 100) ≤ t1 * (1 / 2)) ∧
    CoherenceVerifier.verify 10 100 = true ∧
    CoherenceVerifier.verify 2000 1 = false := by
  refine ⟨?_, by with_unfolding_all decide, by with_unfolding_all decide⟩
  unfold CoherenceVerifier.verify
  simp only []
  split_ifs with h
  · exact iff_of_false (by simp) (not_le.mpr h)
  · exact iff_of_true rfl (le_of_not_lt h)

/-- Witness for `coherence_verify_spec` (instantiating the iff at
`depth = 10`, `t1 = 100`). -/
theorem coherence_verify_spec_witness :
    CoherenceVerifier.verify 10 100 = true ∧ (10 : ℚ) * (5 / 100) ≤ 100 * (1 / 2) :=
  ⟨(coherence_verify_spec 10 100).2.1,
    ((coherence_verify_spec 10 100).1).mp (coherence_verify_spec 10 100).2.1⟩

/-- Six consecutive `report_failure` calls starting from a fresh guard. -/
def sixFailures (t1 t2 t3 t4 t5 t6 : ℚ) : SentinelSRE :=
  (((((SentinelSRE.new.reportFailure t1).reportFailure t2).reportFailure
    t3).reportFailure t4).reportFailure t5).reportFailure t6

/-- C2: six consecutive `report_failure` calls on a fresh guard open the
circuit (counter 6, last failure stamped at the sixth call); `check_health`
within the 30-second cooldown returns `false`, and once more than 30 seconds
have elapsed since the last failure the next `check_health` returns `true`,
sets the state to `Healthy`, and resets the error counter to zero. -/
theorem health_guard_six_failures (t1 t2 t3 t4 t5 t6 tc td : ℚ)
    (hcool : tc - t6 ≤ 30) (hpast : td - t6 > 30) :
    (sixFailures t1 t2 t3 t4 t5 t6).state = HealthState.Open ∧
    (sixFailures t1 t2 t3 t4 t5 t6).errorCount = 6 ∧
    (sixFailures t1 t2 t3 t4 t5 t6).lastFailure = some t6 ∧
    ((sixFailures t1 t2 t3 t4 t5 t6).checkHealth tc).1 = false ∧
    ((sixFailures t1 t2 t3 t4 t5 t6).checkHealth td).1 = true ∧
    ((sixFailures t1 t2 t3 t4 t5 t6).checkHealth td).2.state = HealthState.Healthy ∧
    ((sixFailures t1 t2 t3 t4 t5 t6).checkHealth td).2.errorCount = 0 := by
  have hg : sixFailures t1 t2 t3 t4 t5 t6 =
      ⟨HealthState.Open, 6, some t6⟩ := rfl
  have hno : ¬ (tc - t6 > 30) := not_lt.mpr hcool
  refine ⟨rfl, rfl, rfl, ?_, ?_, ?_, ?_⟩
  · rw [hg]; simp [SentinelSRE.checkHealth, hno]
  · rw [hg]; simp [SentinelSRE.checkHealth, hpast]
  · rw [hg]; simp [SentinelSRE.checkHealth, hpast, SentinelSRE.reset]
  · rw [hg]; simp [SentinelSRE.checkHealth, hpast, SentinelSRE.reset]

/-- Witness for `health_guard_six_failures`: failures at times `0..0`, a
denied check at time 10 and an admitted, state-resetting check at time 31. -/
theorem health_guard_six_failures_witness :
    ((10 : ℚ) - 0 ≤ 30 ∧ (31 : ℚ) - 0 > 30) ∧
    (((sixFailures 0 0 0 0 0 0).checkHealth 10).1 = false ∧
      ((sixFailures 0 0 0 0 0 0).checkHealth 31).1 = true ∧
      ((sixFailures 0 0 0 0 0 0).checkHealth 31).2.state = HealthState.Healthy ∧
      ((sixFailures 0 0 0 0 0 0).checkHealth 31).2.errorCount = 0) := by
  have h := health_guard_six_failures 0 0 0 0 0 0 10 31
    (by with_unfolding_all decide) (by with_unfolding_all decide)
  exact ⟨⟨by with_unfolding_all decide, by with_unfolding_all decide⟩,
    h.2.2.2.1, h.2.2.2.2.1, h.2.2.2.2.2.1, h.2.2.2.2.2.2⟩

/-- The operations through which the guard's shared state is reachable:
`report_failure`, `record_metric`, and `check_health` (each stamped with the
current time where the source reads the clock). -/
inductive SREOp where
  | reportFailure (now : ℚ)
  | recordMetric
  | checkHealth (now : ℚ)

/-- Apply one guard operation to the shared state (for `check_health` the
resulting state; its boolean result is dropped). -/
def SREOp.apply (s : SentinelSRE) : SREOp → SentinelSRE
  | SREOp.reportFailure now => s.reportFailure now
  | SREOp.recordMetric => s.recordMetric
  | SREOp.checkHealth now => (s.checkHealth now).2

/-- Run a sequence of guard operations from a state. -/
def runSRE (s : SentinelSRE) (ops : List SREOp) : SentinelSRE :=
  ops.foldl SREOp.apply s

/-- One guard operation preserves the invariant "if the circuit is `Open`
then a last-failure timestamp is present". -/
theorem sre_open_invariant_step (s : SentinelSRE) (op : SREOp)
    (h : s.state = HealthState.Open → s.lastFailure ≠ none) :
    (SREOp.apply s op).state = HealthState.Open →
      (SREOp.apply s op).lastFailure ≠ none := by
  cases op with
  | reportFailure now =>
      intro _
      simp only [SREOp.apply, SentinelSRE.reportFailure]
      split_ifs <;> simp
  | recordMetric => exact h
  | checkHealth now =>
      simp only [SREOp.apply, SentinelSRE.checkHealth]
      split_ifs with hs
      · cases hl : s.lastFailure with
        | none => simp [hl]; exact fun hopen => (h hs) hl
        | some t =>
            simp only [hl]
            split_ifs with htime
            · intro habs
              simp [SentinelSRE.reset] at habs
            · intro _; simp [hl]
      · exact h

/-- C10: in every guard state reachable from the fresh state by any
sequence of `report_failure`, `record_metric`, and `check_health`
operations, an `Open` circuit implies a present last-failure timestamp, so
the elapsed-time computation in `check_health` is always defined when the
breaker is open. -/
theorem sre_reachable_open_has_timestamp (ops : List SREOp)
    (hopen : (runSRE SentinelSRE.new ops).state = HealthState.Open) :
    (runSRE SentinelSRE.new ops).lastFailure ≠ none := by
  suffices hgen : ∀ (l : List SREOp) (s : SentinelSRE),
      (s.state = HealthState.Open → s.lastFailure ≠ none) →
      ((runSRE s l).state = HealthState.Open → (runSRE s l).lastFailure ≠ none) by
    refine hgen ops SentinelSRE.new ?_ hopen
    intro habs
    simp [SentinelSRE.new] at habs
  intro l
  induction l with
  | nil => intro s h; exact h
  | cons op rest ih =>
      intro s h
      exact ih (SREOp.apply s op) (sre_open_invariant_step s op h)

/-- Witness for `sre_reachable_open_has_timestamp`: after six failure
reports at time 0, the circuit is `Open` and the timestamp is present. -/
theorem sre_reachable_open_has_timestamp_witness :
    (runSRE SentinelSRE.new (List.replicate 6 (SREOp.reportFailure 0))).state =
      HealthState.Open ∧
    (runSRE SentinelSRE.new (List.replicate 6 (SREOp.reportFailure 0))).lastFailure ≠
      none :=
  ⟨rfl, sre_reachable_open_has_timestamp (List.replicate 6 (SREOp.reportFailure 0)) rfl⟩

/-! ### `src/knowledge.rs` — knowledge graph and strategy inference

`f64` values obtained from JSON are modelled as `FloatVal`: an exact
rational for finite values, plus the infinities and NaN that Rust's string
parser can produce.  Decimal-to-binary rounding is not modelled (every
decimal literal is kept exact); none of the claims depend on it. -/

/-- A parsed `f64` value. -/
inductive FloatVal where
  | fin (q : ℚ)
  | inf
  | negInf
  | nan
deriving DecidableEq, Repr

/-- The `f64` `<` comparison (NaN compares false against everything). -/
def FloatVal.lt : FloatVal → FloatVal → Bool
  | FloatVal.nan, _ => false
  | _, FloatVal.nan => false
  | FloatVal.fin a, FloatVal.fin b => decide (a < b)
  | FloatVal.fin _, FloatVal.inf => true
  | FloatVal.fin _, FloatVal.negInf => false
  | FloatVal.inf, _ => false
  | FloatVal.negInf, FloatVal.negInf => false
  | FloatVal.negInf, _ => true

/-- Numeric value of a list of decimal digit characters. -/
def digitsVal (ds : List Char) : ℕ :=
  ds.foldl (fun acc c => 10 * acc + (c.toNat - 48)) 0

/-- Parse the optional exponent suffix of a float literal (`e`/`E`, an
optional sign, then at least one digit); `[]` means exponent `0`. -/
def parseExpPart : List Char → Option ℤ
  | [] => some 0
  | c :: rest =>
      if c = 'e' ∨ c = 'E' then
        match rest with
        | '+' :: ds =>
            if ds ≠ [] ∧ ds.all Char.isDigit then some (digitsVal ds) else none
        | '-' :: ds =>
            if ds ≠ [] ∧ ds.all Char.isDigit then some (-(digitsVal ds : ℤ)) else none
        | ds =>
            if ds ≠ [] ∧ ds.all Char.isDigit then some (digitsVal ds) else none
      else none

/-- `m * 10 ^ (e - fracLen)`: the value of a decimal literal with integer
and fractional digits concatenated into `m`. -/
def applySci (m : ℕ) (fracLen : ℕ) (e : ℤ) : ℚ :=
  (m : ℚ) * (10 : ℚ) ^ (e - (fracLen : ℤ))

/-- Parse the number body of Rust's `f64` grammar
(`Digit+ | Digit+ . Digit* | Digit* . Digit+`, optionally followed by an
exponent). -/
def parseNumberBody (cs : List Char) : Option ℚ :=
  let intPart := cs.takeWhile Char.isDigit
  let rest1 := cs.dropWhile Char.isDigit
  match rest1 with
  | '.' :: rest2 =>
      let fracPart := rest2.takeWhile Char.isDigit
      let rest3 := rest2.dropWhile Char.isDigit
      if intPart = [] ∧ fracPart = [] then none
      else
        match parseExpPart rest3 with
        | some e => some (applySci (digitsVal (intPart ++ fracPart)) fracPart.length e)
        | none => none
  | _ =>
      if intPart = [] then none
      else
        match parseExpPart rest1 with
        | some e => some (applySci (digitsVal intPart) 0 e)
        | none => none

/-- Rust's `str::parse::<f64>` (`f64::from_str`): an optional sign followed
by `inf`/`infinity`/`nan` (case-insensitive) or a decimal number with
optional fraction and exponent.  Finite values are kept as exact rationals. -/
def rustParseF64 (s : String) : Option FloatVal :=
  let cs := s.toList
  let signBody : ℤ × List Char :=
    match cs with
    | '+' :: r => (1, r)
    | '-' :: r => (-1, r)
    | r => (1, r)
  let sign := signBody.1
  let body := signBody.2
  let lower := body.map Char.toLower
  if lower = ['i', 'n', 'f'] ∨ lower = "infinity".toList then
    some (if sign = 1 then FloatVal.inf else FloatVal.negInf)
  else if lower = ['n', 'a', 'n'] then
    some FloatVal.nan
  else
    match parseNumberBody body with
    | some q => some (FloatVal.fin ((sign : ℚ) * q))
    | none => none

/-- The fragment of `serde_json::Value` the knowledge code inspects. -/
inductive JsonVal where
  | num (q : ℚ)
  | str (s : String)
  | other
deriving DecidableEq, Repr

/-- `serde_json::Value::as_str`. -/
def JsonVal.asStr : JsonVal → Option String
  | JsonVal.str s => some s
  | _ => none

/-- `serde_json::Value::as_f64`. -/
def JsonVal.asF64 : JsonVal → Option ℚ
  | JsonVal.num q => some q
  | _ => none

/-- A knowledge-graph node (`Node` in `src/knowledge.rs`); the `HashMap`
property bag is an association list. -/
structure Node where
  id : String
  nodeType : String
  label : String
  properties : List (String × JsonVal)
deriving DecidableEq, Repr

/-- A knowledge-graph edge (`Edge` in `src/knowledge.rs`). -/
structure Edge where
  source : String
  target : String
  relationship : String
  properties : List (String × JsonVal)
deriving DecidableEq, Repr

/-- The loaded graph (`QuantumKnowledge` in `src/knowledge.rs`): an
id-to-node mapping and a source-id-to-outgoing-edges mapping. -/
structure QuantumKnowledge where
  nodes : List (String × Node)
  edgesBySource : List (String × List Edge)
deriving DecidableEq, Repr

/-- `QuantumKnowledge::get_device_specs`. -/
def QuantumKnowledge.getDeviceSpecs (kb : QuantumKnowledge) (id : String) :
    Option (List (String × JsonVal)) :=
  (kb.nodes.lookup id).map Node.properties

/-- The parsed fidelity-loss metric of an `eplg` property value: a string
property is parsed with Rust `f64` parsing, falling back to `0.01` when
parsing fails; otherwise `as_f64` is used with the same `0.01` fallback. -/
def eplgMetric (eplgVal : JsonVal) : FloatVal :=
  match eplgVal.asStr with
  | some s => (rustParseF64 s).getD (FloatVal.fin (1 / 100))
  | none =>
      match eplgVal.asF64 with
      | some q => FloatVal.fin q
      | none => FloatVal.fin (1 / 100)

/-- `QuantumKnowledge::infer_optimal_strategy`: strategy and QAOA depth from
the target node's `eplg` property, defaulting to `("Standard-QAOA", 1)`.
The source's thresholds `1e-3` and `5e-3` are the fractions `1 / 1000` and
`5 / 1000`. -/
def QuantumKnowledge.inferOptimalStrategy (kb : QuantumKnowledge)
    (targetHw : String) : String × ℕ :=
  match kb.getDeviceSpecs targetHw with
  | none => ("Standard-QAOA", 1)
  | some specs =>
      match specs.lookup "eplg" with
      | none => ("Standard-QAOA", 1)
      | some eplgVal =>
          let eplg := eplgMetric eplgVal
          if eplg.lt (FloatVal.fin (1 / 1000)) then ("Deep-QAOA (High-Fi)", 4)
          else if eplg.lt (FloatVal.fin (5 / 1000)) then ("Balanced-QAOA", 2)
          else ("Shallow-QAOA (NISQ)", 1)

set_option maxRecDepth 4000 in
/-- C3 counterexample: with the target node absent, the returned strategy
label is `"Standard-QAOA"`, not `"Standard"` as the claim's
`(strategy="Standard", depth=1)` asserts. -/
theorem infer_default_not_standard_label :
    QuantumKnowledge.inferOptimalStrategy ⟨[], []⟩ "hw-ibm-heron" =
      ("Standard-QAOA", 1) ∧
    QuantumKnowledge.inferOptimalStrategy ⟨[], []⟩ "hw-ibm-heron" ≠
      ("Standard", 1) := by
  constructor <;> decide

/-- C3 amended: `infer_optimal_strategy` returns depth 4 when the parsed
`eplg` metric is `< 1e-3`, depth 2 when it is in `[1e-3, 5e-3)`, and depth 1
when it is `≥ 5e-3`; when the target node or the `eplg` property is absent
it returns `("Standard-QAOA", 1)` (labelled `Standard-QAOA`, not
`Standard`); a string-encoded metric (scientific notation included) is
parsed as a float, with `0.01` substituted when parsing fails. -/
theorem infer_strategy_thresholds (kb : QuantumKnowledge) (tgt : String) :
    (kb.getDeviceSpecs tgt = none →
      kb.inferOptimalStrategy tgt = ("Standard-QAOA", 1)) ∧
    (∀ specs, kb.getDeviceSpecs tgt = some specs → specs.lookup "eplg" = none →
      kb.inferOptimalStrategy tgt = ("Standard-QAOA", 1)) ∧
    (∀ specs v m, kb.getDeviceSpecs tgt = some specs →
      specs.lookup "eplg" = some v → eplgMetric v = FloatVal.fin m →
      (m < 1 / 1000 → kb.inferOptimalStrategy tgt = ("Deep-QAOA (High-Fi)", 4)) ∧
      (1 / 1000 ≤ m → m < 5 / 1000 →
        kb.inferOptimalStrategy tgt = ("Balanced-QAOA", 2)) ∧
      (5 / 1000 ≤ m →
        kb.inferOptimalStrategy tgt = ("Shallow-QAOA (NISQ)", 1))) ∧
    (∀ s, rustParseF64 s = none →
      eplgMetric (JsonVal.str s) = FloatVal.fin (1 / 100)) := by
  refine ⟨?_, ?_, ?_, ?_⟩
  · intro h
    simp [QuantumKnowledge.inferOptimalStrategy, h]
  · intro specs hspecs hlook
    simp [QuantumKnowledge.inferOptimalStrategy, hspecs, hlook]
  · intro specs v m hspecs hlook hm
    refine ⟨?_, ?_, ?_⟩
    · intro hlt
      simp [-one_div, QuantumKnowledge.inferOptimalStrategy, hspecs, hlook, hm,
        FloatVal.lt, hlt]
    · intro hge hlt
      simp [-one_div, QuantumKnowledge.inferOptimalStrategy, hspecs, hlook, hm,
        FloatVal.lt, not_lt.mpr hge, hlt]
    · intro hge
      have h1 : ¬ (m < 1 / 1000) :=
        not_lt.mpr (le_trans (by norm_num : (1 : ℚ) / 1000 ≤ 5 / 1000) hge)
      simp [-one_div, QuantumKnowledge.inferOptimalStrategy, hspecs, hlook, hm,
        FloatVal.lt, h1, not_lt.mpr hge]
  · intro s h
    simp [eplgMetric, JsonVal.asStr, h]

/-- The Heron hardware node used as a concrete instance: its `eplg`
property is the string `"3.7E-3"` (scientific notation, as in the shipped
knowledge-graph JSON). -/
def heronNode : Node :=
  ⟨"hw-ibm-heron", "hardware", "IBM Heron", [("eplg", JsonVal.str "3.7E-3")]⟩

/-- A one-node knowledge graph holding `heronNode`. -/
def kbSample : QuantumKnowledge := ⟨[("hw-ibm-heron", heronNode)], []⟩

set_option maxRecDepth 4000 in
/-- Witness for `infer_strategy_thresholds`: the string metric `"3.7E-3"`
parses to `37 / 10000`, lands in `[1e-3, 5e-3)`, and selects
`("Balanced-QAOA", 2)`. -/
theorem infer_strategy_thresholds_witness :
    QuantumKnowledge.getDeviceSpecs kbSample "hw-ibm-heron" =
      some [("eplg", JsonVal.str "3.7E-3")] ∧
    eplgMetric (JsonVal.str "3.7E-3") = FloatVal.fin (37 / 10000) ∧
    ((1 : ℚ) / 1000 ≤ 37 / 10000 ∧ (37 : ℚ) / 10000 < 5 / 1000) ∧
    QuantumKnowledge.inferOptimalStrategy kbSample "hw-ibm-heron" =
      ("Balanced-QAOA", 2) := by
  have hparse : rustParseF64 "3.7E-3" = some (FloatVal.fin (applySci 37 1 (-3))) := by
    with_unfolding_all rfl
  have hval : applySci 37 1 (-3) = 37 / 10000 := by norm_num [applySci]
  have hmetric : eplgMetric (JsonVal.str "3.7E-3") = FloatVal.fin (37 / 10000) := by
    simp [eplgMetric, JsonVal.asStr, hparse, hval]
  have hspecs : QuantumKnowledge.getDeviceSpecs kbSample "hw-ibm-heron" =
      some [("eplg", JsonVal.str "3.7E-3")] := by decide
  have hlook : List.lookup "eplg" [("eplg", JsonVal.str "3.7E-3")] =
      some (JsonVal.str "3.7E-3") := by decide
  have h1 : (1 : ℚ) / 1000 ≤ 37 / 10000 := by with_unfolding_all decide
  have h2 : (37 : ℚ) / 10000 < 5 / 1000 := by with_unfolding_all decide
  have hmain := ((infer_strategy_thresholds kbSample "hw-ibm-heron").2.2.1
    [("eplg", JsonVal.str "3.7E-3")] (JsonVal.str "3.7E-3") (37 / 10000)
    hspecs hlook hmetric).2.1 h1 h2
  exact ⟨hspecs, hmetric, ⟨h1, h2⟩, hmain⟩

/-! ### `src/feed/mod.rs` — the Heston signal generator

The source's `f64` state is modelled as exact rationals.  ℚ has no exact
square root, so `f64::sqrt` is abstracted as an explicit function parameter
`sq : ℚ → ℚ`; the floor invariant below holds for every `sq`, in particular
for the real square root.  `rand::thread_rng()` is the thread's ambient
generator, not a field of the feed: it is modelled as an infinite tape of
standard-normal draws with a cursor owned by the thread. -/

/-- The feed state (`SentinelFeed` in `src/feed/mod.rs`). -/
structure SentinelFeed where
  s0 : ℚ
  v0 : ℚ
  kappa : ℚ
  theta : ℚ
  xi : ℚ
  rho : ℚ
  dt : ℚ
  currentPrice : ℚ
  currentVol : ℚ
deriving DecidableEq, Repr

/-- `SentinelFeed::new()`: fixed Heston parameters, no seed and no random
source among the arguments or fields (decimal literals as exact fractions). -/
def SentinelFeed.new : SentinelFeed :=
  { s0 := 100, v0 := 4 / 100, kappa := 2, theta := 4 / 100, xi := 1 / 10,
    rho := -(7 / 10), dt := 1 / 252, currentPrice := 100, currentVol := 4 / 100 }

/-- The ambient thread-local generator (`rand::thread_rng()`): an infinite
tape of draws and a cursor.  It is owned by the thread and shared by every
feed instance the thread advances. -/
structure ThreadRng where
  tape : ℕ → ℚ
  pos : ℕ

/-- Draw the next sample from the thread generator. -/
def ThreadRng.sample (r : ThreadRng) : ℚ × ThreadRng :=
  (r.tape r.pos, ⟨r.tape, r.pos + 1⟩)

/-- `SentinelFeed::next_tick`: draws two standard-normal samples from the
ambient thread generator, builds the correlated Brownian increment, applies
the mean-reverting CIR variance update clamped to the floor `0.001`, then
the drift-plus-diffusion price update; returns the new price with the
updated feed and generator. -/
def SentinelFeed.nextTick (sq : ℚ → ℚ) (f : SentinelFeed) (rng : ThreadRng) :
    ℚ × SentinelFeed × ThreadRng :=
  let d1 := rng.sample
  let z1 := d1.1
  let d2 := d1.2.sample
  let zInd := d2.1
  let rng2 := d2.2
  let z2 := f.rho * z1 + sq (1 - f.rho ^ 2) * zInd
  let dv := f.kappa * (f.theta - f.currentVol) * f.dt
            + f.xi * sq f.currentVol * z2 * sq f.dt
  let newVol := max (f.currentVol + dv) (1 / 1000)
  let drift : ℚ := 5 / 100
  let ds := drift * f.currentPrice * f.dt
            + sq newVol * f.currentPrice * z1 * sq f.dt
  let newPrice := f.currentPrice + ds
  (newPrice, { f with currentVol := newVol, currentPrice := newPrice }, rng2)

/-- C8: after every `next_tick` — for every square-root function, every
feed state, and any random draws — the variance is at least the floor
`0.001`, hence strictly positive (so the square root in the price update is
taken of a strictly positive variance). -/
theorem variance_floor (sq : ℚ → ℚ) (f : SentinelFeed) (rng : ThreadRng) :
    1 / 1000 ≤ ((f.nextTick sq rng).2.1).currentVol ∧
    0 < ((f.nextTick sq rng).2.1).currentVol := by
  have hvol : ((f.nextTick sq rng).2.1).currentVol =
      max (f.currentVol + (f.kappa * (f.theta - f.currentVol) * f.dt
        + f.xi * sq f.currentVol * (f.rho * rng.tape rng.pos
          + sq (1 - f.rho ^ 2) * rng.tape (rng.pos + 1)) * sq f.dt))
        (1 / 1000) := rfl
  rw [hvol]
  exact ⟨le_max_right _ _,
    lt_of_lt_of_le (by norm_num) (le_max_right _ _)⟩

/-- A concrete instantiation of the abstracted square root (used only to
evaluate the embedding at a specific point). -/
def unitSqrt : ℚ → ℚ := fun _ => 1

/-- A concrete ambient thread generator: tape `0, 1, 2, 3, ...`, cursor at
the start. -/
def sharedRng : ThreadRng := ⟨fun n => (n : ℚ), 0⟩

/-- A first fresh feed instance advanced once on the thread. -/
def firstInstanceRun : ℚ × SentinelFeed × ThreadRng :=
  SentinelFeed.new.nextTick unitSqrt sharedRng

/-- A second, identically constructed fresh feed instance advanced next on
the same thread (consuming the following draws). -/
def secondInstanceRun : ℚ × SentinelFeed × ThreadRng :=
  SentinelFeed.new.nextTick unitSqrt firstInstanceRun.2.2

/-- C9 counterexample: `SentinelFeed::new` has no seed parameter, so any
two instances are "constructed with the same seed"; yet two identically
constructed instances advanced on the same thread read different positions
of the shared `thread_rng` tape and produce different first prices — the
output is not reproducible from the construction. -/
theorem feed_shared_thread_rng_not_reproducible :
    firstInstanceRun.1 ≠ secondInstanceRun.1 := by
  norm_num [firstInstanceRun, secondInstanceRun, sharedRng, unitSqrt,
    SentinelFeed.nextTick, SentinelFeed.new, ThreadRng.sample]

/-- C9 amended: the feed's randomness is the ambient thread generator, not
an injectable per-instance seed.  Its output is a deterministic function of
the draws at the ambient cursor: two runs from equal feed states agree
whenever the two ambient draws they consume agree, and each tick advances
the shared cursor by two draws. -/
theorem feed_draws_from_ambient_thread (sq : ℚ → ℚ) (f : SentinelFeed)
    (r r' : ThreadRng)
    (h0 : r.tape r.pos = r'.tape r'.pos)
    (h1 : r.tape (r.pos + 1) = r'.tape (r'.pos + 1)) :
    (f.nextTick sq r).1 = (f.nextTick sq r').1 ∧
    (f.nextTick sq r).2.2.pos = r.pos + 2 := by
  constructor
  · simp only [SentinelFeed.nextTick, ThreadRng.sample]
    rw [h0, h1]
  · rfl

/-- Witness for `feed_draws_from_ambient_thread`: a tape shifted by three
positions with a cursor three steps ahead supplies the same draws, so the
prices agree and the cursor advances from 0 to 2. -/
theorem feed_draws_from_ambient_thread_witness :
    ((sharedRng.tape sharedRng.pos =
        (ThreadRng.mk (fun n => (n : ℚ) - 3) 3).tape
          (ThreadRng.mk (fun n => (n : ℚ) - 3) 3).pos) ∧
      (sharedRng.tape (sharedRng.pos + 1) =
        (ThreadRng.mk (fun n => (n : ℚ) - 3) 3).tape
          ((ThreadRng.mk (fun n => (n : ℚ) - 3) 3).pos + 1))) ∧
    (SentinelFeed.new.nextTick unitSqrt sharedRng).1 =
      (SentinelFeed.new.nextTick unitSqrt (ThreadRng.mk (fun n => (n : ℚ) - 3) 3)).1 ∧
    (SentinelFeed.new.nextTick unitSqrt sharedRng).2.2.pos = sharedRng.pos + 2 := by
  have h0 : sharedRng.tape sharedRng.pos =
      (ThreadRng.mk (fun n => (n : ℚ) - 3) 3).tape
        (ThreadRng.mk (fun n => (n : ℚ) - 3) 3).pos := by
    norm_num [sharedRng]
  have h1 : sharedRng.tape (sharedRng.pos + 1) =
      (ThreadRng.mk (fun n => (n : ℚ) - 3) 3).tape
        ((ThreadRng.mk (fun n => (n : ℚ) - 3) 3).pos + 1) := by
    norm_num [sharedRng]
  exact ⟨⟨h0, h1⟩,
    feed_draws_from_ambient_thread unitSqrt SentinelFeed.new sharedRng
      (ThreadRng.mk (fun n => (n : ℚ) - 3) 3) h0 h1⟩

/-! ### `src/crypto/mod.rs` — the post-quantum signed ledger

The `fips204` key pair held by a `Ledger` is abstracted to the two
functions it provides: `trySign` (the secret key's `try_sign`, `none` on a
library signing failure) and `verify` (the public key's check).  A Rust
`panic!` (from `.expect`) is modelled as `Except.error` carrying the panic
message.  The append-only log file is threaded as a list of lines, and
`f64` Display formatting of the two numeric fields is abstracted by taking
the already-formatted strings. -/

/-- One hexadecimal digit character. -/
def hexDigit (n : ℕ) : Char :=
  if n < 10 then Char.ofNat (48 + n) else Char.ofNat (87 + n)

/-- `hex::encode` over a byte list. -/
def hexEncode (bytes : List ℕ) : String :=
  String.mk (bytes.foldr
    (fun b acc => hexDigit (b / 16) :: hexDigit (b % 16) :: acc) [])

/-- The ledger (`Ledger` in `src/crypto/mod.rs`). -/
structure Ledger where
  logFile : String
  trySign : String → Option (List ℕ)
  verify : String → List ℕ → Bool

/-- `Ledger::new`: generates the FIPS 204 key pair with
`try_keygen().expect("Failed to generate FIPS 204 keys")` — a keygen
failure is a panic, not a recoverable error. -/
def Ledger.new (filename : String)
    (keygenResult : Option ((String → Option (List ℕ)) × (String → List ℕ → Bool))) :
    Except String Ledger :=
  match keygenResult with
  | none => Except.error "Failed to generate FIPS 204 keys"
  | some kp => Except.ok { logFile := filename, trySign := kp.1, verify := kp.2 }

/-- `Ledger::record_transaction`: formats `timestamp|price|theta|job_id`,
signs it with `try_sign(..).expect("Signing failed")` — a signing failure
is a panic — then re-verifies (a failed verification only logs a warning),
and appends `payload|sigHex` to the log (an I/O failure only logs). -/
def Ledger.recordTransaction (l : Ledger)
    (timestamp priceStr thetaStr jobId : String) (fileLines : List String) :
    Except String (List String) :=
  let payload := timestamp ++ "|" ++ priceStr ++ "|" ++ thetaStr ++ "|" ++ jobId
  match l.trySign payload with
  | none => Except.error "Signing failed"
  | some signature =>
      let _valid := l.verify payload signature
      let entry := payload ++ "|" ++ hexEncode signature
      Except.ok (fileLines ++ [entry])

/-- A signer that always fails (the library's `try_sign` returning `Err`). -/
def failingSigner : String → Option (List ℕ) := fun _ => none

/-- A signer that always produces the two-byte signature `[1, 2]`. -/
def okSigner : String → Option (List ℕ) := fun _ => some [1, 2]

/-- A verifier that always accepts. -/
def trueVerifier : String → List ℕ → Bool := fun _ _ => true

/-- A ledger whose signing step fails. -/
def failingLedger : Ledger := ⟨"sentinel_ledger.log", failingSigner, trueVerifier⟩

/-- A ledger whose signing step succeeds. -/
def okLedger : Ledger := ⟨"sentinel_ledger.log", okSigner, trueVerifier⟩

/-- C5 counterexample: when the signer fails, `record_transaction` panics
(`.expect("Signing failed")`) instead of logging and skipping the one
transaction, and `Ledger::new` likewise panics when key generation fails —
both are process-fatal, contradicting the claim that no such failure
crashes the loop. -/
theorem record_transaction_panics_on_signing_failure :
    Ledger.recordTransaction failingLedger "ts" "100" "0" "mgr-job-id" [] =
      Except.error "Signing failed" ∧
    Ledger.new "sentinel_ledger.log" none =
      Except.error "Failed to generate FIPS 204 keys" :=
  ⟨rfl, rfl⟩

/-- C5 amended: a signing failure makes `record_transaction` panic with
`"Signing failed"` (process-fatal for the consumption loop); when signing
succeeds the signed entry is appended regardless of the post-sign
verification outcome, whose failure is only a logged warning. -/
theorem record_transaction_sign_behaviour (l : Ledger)
    (ts ps ths jid : String) (lines : List String) :
    (l.trySign (ts ++ "|" ++ ps ++ "|" ++ ths ++ "|" ++ jid) = none →
      l.recordTransaction ts ps ths jid lines = Except.error "Signing failed") ∧
    (∀ sig, l.trySign (ts ++ "|" ++ ps ++ "|" ++ ths ++ "|" ++ jid) = some sig →
      l.recordTransaction ts ps ths jid lines =
        Except.ok (lines ++
          [ts ++ "|" ++ ps ++ "|" ++ ths ++ "|" ++ jid ++ "|" ++ hexEncode sig])) := by
  constructor
  · intro h
    simp [Ledger.recordTransaction, h]
  · intro sig h
    simp [Ledger.recordTransaction, h]

/-- Witness for `record_transaction_sign_behaviour`: the failing ledger
panics; the succeeding ledger appends the signed entry `...|0102`. -/
theorem record_transaction_sign_behaviour_witness :
    (failingLedger.trySign "ts|100|0|mgr-job-id" = none ∧
      failingLedger.recordTransaction "ts" "100" "0" "mgr-job-id" [] =
        Except.error "Signing failed") ∧
    (okLedger.trySign "ts|100|0|mgr-job-id" = some [1, 2] ∧
      okLedger.recordTransaction "ts" "100" "0" "mgr-job-id" [] =
        Except.ok ["ts|100|0|mgr-job-id|0102"]) := by
  refine ⟨⟨rfl, ?_⟩, ⟨rfl, ?_⟩⟩
  · exact (record_transaction_sign_behaviour failingLedger "ts" "100" "0"
      "mgr-job-id" []).1 rfl
  · have h := (record_transaction_sign_behaviour okLedger "ts" "100" "0"
      "mgr-job-id" []).2 [1, 2] rfl
    rw [h]
    rfl

/-! ### `src/manager.rs` — the orchestrating optimization cycle -/

/-- `QuantumManager`: the (possibly absent) knowledge graph and the SRE
guard it holds. -/
structure QuantumManager where
  kg : Option QuantumKnowledge
  sre : SentinelSRE

/-- `QuantumManager::run_optimization_cycle`: infer strategy and depth
(defaults `"Unknown"`, 1 and T1 limit 50 when the graph is absent; T1
mocked to 100 when the device node has specs), verify coherence for
`depth * 10` layers — aborting the cycle on failure — then call the
synthesis collaborator: on success record a metric (no SRE state change)
and record the transaction on the ledger; on failure only log the error.
The SRE guard state and ledger file are threaded explicitly; a ledger panic
propagates as `Except.error`. -/
def QuantumManager.runOptimizationCycle (mgr : QuantumManager)
    (synth : ℕ → Except String String) (ledger : Ledger) (timestamp : String)
    (fileLines : List String) (step : ℕ) (priceStr : String) :
    Except String (SentinelSRE × List String) :=
  let resolved : String × ℕ × ℚ :=
    match mgr.kg with
    | none => ("Unknown", 1, 50)
    | some graph =>
        let sd := graph.inferOptimalStrategy "hw-ibm-heron"
        let t1 : ℚ :=
          match graph.getDeviceSpecs "hw-ibm-heron" with
          | some _ => 100
          | none => 50
        (sd.1, sd.2, t1)
  let depth := resolved.2.1
  let t1Limit := resolved.2.2
  if CoherenceVerifier.verify (depth * 10) t1Limit = false then
    Except.ok (mgr.sre, fileLines)
  else
    match synth depth with
    | Except.ok _qasm =>
        (Ledger.recordTransaction ledger timestamp priceStr "0" "mgr-job-id"
          fileLines).map (fun lines2 => (mgr.sre.recordMetric, lines2))
    | Except.error _e => Except.ok (mgr.sre, fileLines)

/-- C4 counterexample: a cycle whose synthesis collaborator fails leaves
the SRE error counter at 0 — the failure is not reported to the guard, so
the counter is not raised to 1 as the claim asserts. -/
theorem synthesis_failure_counter_unchanged :
    ((QuantumManager.mk none SentinelSRE.new).runOptimizationCycle
        (fun _ => Except.error "Generation Failed") okLedger "ts" [] 50 "101").map
        (fun r => r.1.errorCount) = Except.ok 0 ∧
    ((QuantumManager.mk none SentinelSRE.new).runOptimizationCycle
        (fun _ => Except.error "Generation Failed") okLedger "ts" [] 50 "101").map
        (fun r => r.1.errorCount) ≠ Except.ok 1 := by
  have h0 : ((QuantumManager.mk none SentinelSRE.new).runOptimizationCycle
      (fun _ => Except.error "Generation Failed") okLedger "ts" [] 50 "101").map
      (fun r => r.1.errorCount) = Except.ok 0 := by
    with_unfolding_all rfl
  refine ⟨h0, ?_⟩
  rw [h0]
  simp

/-- C4 amended: whenever the synthesis collaborator fails, the cycle is
aborted with only a log line: the SRE guard state (error counter, circuit
state, and last-failure timestamp) and the ledger file are returned
unchanged — the failure is not reported to the guard. -/
theorem synthesis_failure_not_reported (mgr : QuantumManager) (e : String)
    (ledger : Ledger) (ts : String) (lines : List String) (step : ℕ)
    (p : String) :
    mgr.runOptimizationCycle (fun _ => Except.error e) ledger ts lines step p =
      Except.ok (mgr.sre, lines) := by
  simp only [QuantumManager.runOptimizationCycle]
  split_ifs <;> rfl

end Sentinel
